import Mathlib

/-!
Verification development for the aggregation pipeline of the Celigo U
scraper popup script.  The pipeline lives in the function combineResults
together with its helpers generateContentHash and parseLabel.

Modelling conventions.  JS strings are Lean strings; a missing string
field is the empty string, which is observationally equivalent for this
code because the source only ever tests truthiness of these fields and
an absent field and the empty string are both falsy.  Category values
are lists of items; the free-form rawText is a string.  A later, dynamic
model (namespace Dyn) relaxes item fields to arbitrary JS primitives in
order to study the behaviour of the pipeline on malformed items.
-/

namespace Celigo

/-- JS disjunction a || b restricted to strings: the empty string is falsy. -/
def jsOr (a b : String) : String := if a = "" then b else a

/-- JS String.prototype.substring(0, n), as a truncation of the
character sequence.  Defined structurally over the character list so
that concrete instances evaluate by kernel reduction. -/
def strTake (s : String) (n : Nat) : String := String.mk (s.data.take n)

/-- JS Array.prototype.join with the given separator. -/
def joinSep (sep : String) : List String → String
  | [] => ""
  | [s] => s
  | s :: rest => s ++ sep ++ joinSep sep rest

/-- JS String.prototype.toLowerCase, character by character. -/
def strToLower (s : String) : String := String.mk (s.data.map Char.toLower)

/-- The whitespace removed by JS String.prototype.trim, restricted to
its ASCII members. -/
def isTrimWs (c : Char) : Bool :=
  c = ' ' || c = '\t' || c = '\n' || c = '\r' ||
  c = Char.ofNat 0x0b || c = Char.ofNat 0x0c

/-- JS String.prototype.trim: strip whitespace from both ends. -/
def strTrim (s : String) : String :=
  String.mk (((s.data.dropWhile isTrimWs).reverse.dropWhile isTrimWs).reverse)

/-- JS String.prototype.includes, as containment of character sequences. -/
def occursWithin (pat : List Char) : List Char → Bool
  | [] => decide (pat = [])
  | c :: rest => pat.isPrefixOf (c :: rest) || occursWithin pat rest

/-- jsIncludes s pat models s.includes(pat). -/
def jsIncludes (s pat : String) : Bool := occursWithin pat.data s.data

/-- The FALSE_POSITIVE_KC constant of the source: transient system-message
substrings that disqualify a knowledge-check question. -/
def FALSE_POSITIVE_KC : List String :=
  ["you are offline", "trying to reconnect", "loading", "please wait",
   "error occurred", "begin by", "select either option"]

/-- Metadata record; every field optional in the source, defaulting to "". -/
structure Metadata where
  scrapedAt : String := ""
  url : String := ""
  course : String := ""
  lesson : String := ""
  path : String := ""
deriving DecidableEq, Repr

/-- One point of a hotspot (labeled graphic) group. -/
structure Point where
  index : Nat := 0
  title : String := ""
  description : String := ""
  rawLabel : String := ""
  label : String := ""
deriving DecidableEq, Repr

/-- A content item.  The source is duck-typed; this record carries every
field the pipeline reads (content, question, title, description, label,
points, items) plus the payload fields id, front and back that pass
through the pipeline untouched. -/
structure Item where
  id : String := ""
  content : String := ""
  question : String := ""
  title : String := ""
  description : String := ""
  label : String := ""
  front : String := ""
  back : String := ""
  points : Option (List Point) := none
  items : List String := []
deriving DecidableEq, Repr

/-- generateContentHash from the source: for a hotspot group, the first
non-empty of title, description, label of each point, joined with a bar
and truncated to 200 characters; otherwise the first non-empty of
content, question, title, description, label truncated to 200. -/
def generateContentHash (item : Item) : String :=
  match item.points with
  | some pts =>
      strTake (joinSep "|"
        ((pts.map fun p => jsOr p.title (jsOr p.description p.label)).filter
          fun s => 0 < s.length)) 200
  | none =>
      strTake (jsOr item.content (jsOr item.question
        (jsOr item.title (jsOr item.description item.label)))) 200

/-- The content part of one source response; a key is absent (none) or
holds a value.  The nested metadata key mirrors the injected probe which
stores its metadata inside content. -/
structure SourceContent where
  flipCards : Option (List Item) := none
  hotspots : Option (List Item) := none
  knowledgeChecks : Option (List Item) := none
  accordions : Option (List Item) := none
  tabs : Option (List Item) := none
  images : Option (List Item) := none
  textBlocks : Option (List Item) := none
  lists : Option (List Item) := none
  tables : Option (List Item) := none
  videos : Option (List Item) := none
  rawText : Option String := none
  metadata : Option Metadata := none
deriving DecidableEq, Repr

/-- The accumulator content: the ten category sequences plus rawText. -/
structure Content where
  flipCards : List Item := []
  hotspots : List Item := []
  knowledgeChecks : List Item := []
  accordions : List Item := []
  tabs : List Item := []
  images : List Item := []
  textBlocks : List Item := []
  lists : List Item := []
  tables : List Item := []
  videos : List Item := []
  rawText : String := ""
deriving DecidableEq, Repr

/-- The data field of a successful envelope response. -/
structure RData where
  metadata : Option Metadata := none
  content : Option SourceContent := none
deriving DecidableEq, Repr

/-- One entry of the ordered response list fed to combineResults:
absent (null), an envelope with a success flag and optional data, or a
bare metadata-shaped object with url, course, lesson, path keys. -/
inductive Response where
  | absent
  | env (success : Bool) (data : Option RData)
  | bare (url course lesson path : String)
deriving DecidableEq, Repr

/-- The merge accumulator: metadata plus content. -/
structure Accum where
  metadata : Metadata := {}
  content : Content := {}
deriving DecidableEq, Repr

/-- One metadata field merge: set only if the source value is non-empty
and the accumulator value is still empty. -/
def mergeField (acc src : String) : String :=
  if src ≠ "" ∧ acc = "" then src else acc

/-- Merge a source metadata record field by field, first-non-empty-wins. -/
def mergeMetadata (acc src : Metadata) : Metadata :=
  { scrapedAt := mergeField acc.scrapedAt src.scrapedAt
    url := mergeField acc.url src.url
    course := mergeField acc.course src.course
    lesson := mergeField acc.lesson src.lesson
    path := mergeField acc.path src.path }

/-- Merge a bare metadata object; it carries url, course, lesson and path
keys only, so scrapedAt is untouched. -/
def mergeBare (acc : Metadata) (url course lesson path : String) : Metadata :=
  { acc with
    url := mergeField acc.url url
    course := mergeField acc.course course
    lesson := mergeField acc.lesson lesson
    path := mergeField acc.path path }

/-- Merge the content object of one response into the accumulator.  For a
category key present in the source, both sides are arrays so the items
are appended; for rawText the source value is assigned whenever it is
truthy; a nested metadata key is merged into the accumulator metadata. -/
def mergeContentStep (acc : Accum) (src : SourceContent) : Accum :=
  { metadata :=
      match src.metadata with
      | some m => mergeMetadata acc.metadata m
      | none => acc.metadata
    content :=
      { flipCards := acc.content.flipCards ++ src.flipCards.getD []
        hotspots := acc.content.hotspots ++ src.hotspots.getD []
        knowledgeChecks := acc.content.knowledgeChecks ++ src.knowledgeChecks.getD []
        accordions := acc.content.accordions ++ src.accordions.getD []
        tabs := acc.content.tabs ++ src.tabs.getD []
        images := acc.content.images ++ src.images.getD []
        textBlocks := acc.content.textBlocks ++ src.textBlocks.getD []
        lists := acc.content.lists ++ src.lists.getD []
        tables := acc.content.tables ++ src.tables.getD []
        videos := acc.content.videos ++ src.videos.getD []
        rawText :=
          match src.rawText with
          | some s => if s ≠ "" then s else acc.content.rawText
          | none => acc.content.rawText } }

/-- Merge one response.  Absent entries and envelopes with success false
or no data are skipped; a bare metadata object is merged directly when
one of url, course, lesson is non-empty. -/
def mergeResponse (acc : Accum) (r : Response) : Accum :=
  match r with
  | .absent => acc
  | .bare url course lesson path =>
      if url ≠ "" ∨ course ≠ "" ∨ lesson ≠ "" then
        { acc with metadata := mergeBare acc.metadata url course lesson path }
      else acc
  | .env success data =>
      match success, data with
      | true, some d =>
          let acc1 : Accum :=
            match d.metadata with
            | some m => { acc with metadata := mergeMetadata acc.metadata m }
            | none => acc
          match d.content with
          | some c => mergeContentStep acc1 c
          | none => acc1
      | _, _ => acc

/-- The generic per-category deduplication filter with its seen set:
drop an item whose hash is shorter than 5 characters or already seen. -/
def dedupListAux (seen : List String) : List Item → List Item
  | [] => []
  | x :: xs =>
      let h := generateContentHash x
      if h.length < 5 then dedupListAux seen xs
      else if seen.contains h then dedupListAux seen xs
      else x :: dedupListAux (h :: seen) xs

/-- The deduplication pass on one category sequence. -/
def dedupList (xs : List Item) : List Item := dedupListAux [] xs

/-- The deduplication pass over the whole accumulator content; rawText is
not an array and is skipped. -/
def dedupContent (c : Content) : Content :=
  { c with
    flipCards := dedupList c.flipCards
    hotspots := dedupList c.hotspots
    knowledgeChecks := dedupList c.knowledgeChecks
    accordions := dedupList c.accordions
    tabs := dedupList c.tabs
    images := dedupList c.images
    textBlocks := dedupList c.textBlocks
    lists := dedupList c.lists
    tables := dedupList c.tables
    videos := dedupList c.videos }

/-- The hotspot point key: title, a bar, then the first 100 characters of
description if non-empty else rawLabel. -/
def pointKey (p : Point) : String :=
  p.title ++ "|" ++ strTake (jsOr p.description p.rawLabel) 100

/-- One step of the hotspot collapse: keep a point whose key is longer
than 5 characters and unseen, re-indexing it at the end of the output. -/
def collapseStep (st : List Point × List String) (p : Point) :
    List Point × List String :=
  let key := pointKey p
  if 5 < key.length ∧ st.2.contains key = false then
    (st.1 ++ [{ p with index := st.1.length }], key :: st.2)
  else st

/-- Flatten all remaining hotspot groups into one deduplicated point
list, indices assigned by arrival order. -/
def collapsePoints (groups : List Item) : List Point :=
  (groups.foldl
    (fun st g =>
      match g.points with
      | some pts => pts.foldl collapseStep st
      | none => st)
    ([], [])).1

/-- Replace the hotspots category with the single collapsed group, or the
empty list when no point survives. -/
def collapseHotspots (c : Content) : Content :=
  let pts := collapsePoints c.hotspots
  { c with
    hotspots :=
      if 0 < pts.length then [{ id := "hotspots-combined", points := some pts }]
      else [] }

/-- Text-block cleanup: drop blocks whose first 100 content characters
repeat an earlier block. -/
def dedupTextBlocksAux (seen : List String) : List Item → List Item
  | [] => []
  | b :: bs =>
      let h := strTake b.content 100
      if seen.contains h then dedupTextBlocksAux seen bs
      else b :: dedupTextBlocksAux (h :: seen) bs

/-- The text-block cleanup pass. -/
def dedupTextBlocks (xs : List Item) : List Item := dedupTextBlocksAux [] xs

/-- The list-block key: items joined with a bar, truncated to 150. -/
def listKey (b : Item) : String := strTake (joinSep "|" b.items) 150

/-- List-block cleanup: drop lists whose key repeats an earlier one. -/
def dedupListBlocksAux (seen : List String) : List Item → List Item
  | [] => []
  | b :: bs =>
      let h := listKey b
      if seen.contains h then dedupListBlocksAux seen bs
      else b :: dedupListBlocksAux (h :: seen) bs

/-- The list-block cleanup pass. -/
def dedupListBlocks (xs : List Item) : List Item := dedupListBlocksAux [] xs

/-- The reapplied system-message filter on a question string. -/
def kcFalsePositive (q : String) : Bool :=
  FALSE_POSITIVE_KC.any fun fp => jsIncludes (strToLower q) fp

/-- Knowledge-check cleanup: drop checks with a question shorter than 10
characters, system messages, and duplicates on the first 100 question
characters. -/
def filterKCsAux (seen : List String) : List Item → List Item
  | [] => []
  | kc :: rest =>
      if kc.question = "" ∨ kc.question.length < 10 then filterKCsAux seen rest
      else if kcFalsePositive kc.question then filterKCsAux seen rest
      else
        let h := strTake kc.question 100
        if seen.contains h then filterKCsAux seen rest
        else kc :: filterKCsAux (h :: seen) rest

/-- The knowledge-check cleanup pass. -/
def filterKCs (xs : List Item) : List Item := filterKCsAux [] xs

/-- The statistics record: one count per category plus the total. -/
structure Statistics where
  flipCards : Nat := 0
  hotspots : Nat := 0
  knowledgeChecks : Nat := 0
  accordions : Nat := 0
  tabs : Nat := 0
  images : Nat := 0
  textBlocks : Nat := 0
  lists : Nat := 0
  tables : Nat := 0
  videos : Nat := 0
  totalItems : Nat := 0
deriving DecidableEq, Repr

/-- Object.values of the statistics record, in insertion order. -/
def statValues (s : Statistics) : List Nat :=
  [s.flipCards, s.hotspots, s.knowledgeChecks, s.accordions, s.tabs, s.images,
   s.textBlocks, s.lists, s.tables, s.videos, s.totalItems]

/-- Compute the statistics: each category count is the sequence length,
and totalItems is the reduce-sum over all numeric values of the record
(which at that moment include the initial totalItems of 0). -/
def computeStats (c : Content) : Statistics :=
  let s : Statistics :=
    { flipCards := c.flipCards.length
      hotspots := c.hotspots.length
      knowledgeChecks := c.knowledgeChecks.length
      accordions := c.accordions.length
      tabs := c.tabs.length
      images := c.images.length
      textBlocks := c.textBlocks.length
      lists := c.lists.length
      tables := c.tables.length
      videos := c.videos.length
      totalItems := 0 }
  { s with totalItems := (statValues s).foldl (fun a b => a + b) 0 }

/-- The pipeline output. -/
structure CombinedDocument where
  metadata : Metadata
  content : Content
  statistics : Statistics
deriving DecidableEq, Repr

/-- combineResults: fold the ordered response list into the accumulator,
run the generic deduplication, the hotspot collapse, the text-block,
list and knowledge-check cleanups, then derive the statistics.  The
scrapedAt timestamp produced by the clock is passed as a parameter. -/
def combineResults (scrapedAt : String) (responses : List Response) :
    CombinedDocument :=
  let init : Accum := { metadata := { scrapedAt := scrapedAt } }
  let merged := responses.foldl mergeResponse init
  let c1 := dedupContent merged.content
  let c2 := collapseHotspots c1
  let c3 := { c2 with textBlocks := dedupTextBlocks c2.textBlocks }
  let c4 := { c3 with lists := dedupListBlocks c3.lists }
  let c5 := { c4 with knowledgeChecks := filterKCs c4.knowledgeChecks }
  { metadata := merged.metadata, content := c5, statistics := computeStats c5 }

/-! ### The label segmenter (parseLabel)

The source implements parseLabel with three anchored JS regular
expressions tried in order.  The embedding spells out their matching
semantics: a lazy group takes the least number of characters for which
the remainder matches, the JS dot matches every character except the
four line terminators, and the character classes are the ASCII ranges
written in the patterns. -/

/-- JS regex dot: any character except a line terminator. -/
def jsDotOK (c : Char) : Bool :=
  !(c = '\n' || c = '\r' || c = Char.ofNat 0x2028 || c = Char.ofNat 0x2029)

/-- ASCII uppercase letter, the class written A-Z. -/
def isUpperAZ (c : Char) : Bool := 'A' ≤ c && c ≤ 'Z'

/-- ASCII lowercase letter, the class written a-z. -/
def isLowerAZ (c : Char) : Bool := 'a' ≤ c && c ≤ 'z'

/-- The whitespace class of JS regexes, restricted to its ASCII members. -/
def isJsWhitespace (c : Char) : Bool :=
  c = ' ' || c = '\t' || c = '\n' || c = '\r' ||
  c = Char.ofNat 0x0b || c = Char.ofNat 0x0c

/-- The sentence-starter alternatives of the first parseLabel pattern, in
source order; several alternatives carry a trailing space or colon. -/
def sentenceStarters : List String :=
  ["The", "This", "You", "When", "If", "A ", "An ", "It ", "Select", "In ",
   "On ", "Use", "Click", "Choosing", "Enabling", "Disabling", "What",
   "Where", "How", "Why", "Which", "MFA ", "Note:", "Tip:", "Generally",
   "Additional"]

/-- Whether a suffix begins with one of the sentence starters. -/
def startsWithStarter (cs : List Char) : Bool :=
  sentenceStarters.any fun t => t.data.isPrefixOf cs

/-- Offset of the first suffix of the given list that begins with a
sentence starter. -/
def findStarterAux : List Char → Option Nat
  | [] => none
  | c :: rest =>
      if startsWithStarter (c :: rest) then some 0
      else (findStarterAux rest).map (· + 1)

/-- The split position of the lazy first pattern: the least index i of at
least 1 at which a sentence starter begins. -/
def findStarterIdx (cs : List Char) : Option Nat :=
  match cs with
  | [] => none
  | _ :: rest => (findStarterAux rest).map (· + 1)

/-- The first parseLabel pattern: a non-empty lazy dot group, then a
sentence starter followed by the rest of the input.  The groups are the
prefix before the starter position and the whole remaining suffix; the
lazy group must consist of dot characters. -/
def sentencePattern (label : String) : Option (String × String) :=
  match findStarterIdx label.data with
  | some i =>
      if (label.data.take i).all jsDotOK then
        some (String.mk (label.data.take i), String.mk (label.data.drop i))
      else none
  | none => none

/-- Whether a string begins with an ASCII lowercase letter. -/
def startsLowerAZ (s : String) : Bool :=
  match s.data with
  | c :: _ => isLowerAZ c
  | [] => false

/-- First index of at least the given start offset at which an uppercase
letter is immediately followed by a lowercase letter. -/
def findULAux : Nat → List Char → Option Nat
  | _, [] => none
  | _, [_] => none
  | i, a :: b :: rest =>
      if isUpperAZ a && isLowerAZ b then some i
      else findULAux (i + 1) (b :: rest)

/-- The split position of the lazy reparse pattern inside the first rule:
the least index i of at least 1 with an uppercase letter at i and a
lowercase letter at i+1. -/
def findFirstUL (cs : List Char) : Option Nat :=
  match cs with
  | [] => none
  | _ :: rest => findULAux 1 rest

/-- The title reparse of the first rule: the anchored lazy pattern splits
the title at the first uppercase-lowercase position of index at least 1;
it fails when the title contains a line terminator. -/
def reparseSplit (title : String) : Option (String × String) :=
  if title.data.all jsDotOK then
    (findFirstUL title.data).map fun i =>
      (String.mk (title.data.take i), String.mk (title.data.drop i))
  else none

/-- The parsed label result. -/
structure LabelParts where
  title : String
  description : String
deriving DecidableEq, Repr

/-- The lowercase-description cleanup of the first rule: when the
description begins with a lowercase letter, reparse the title and
prepend the reclaimed text (untrimmed) to the description. -/
def fixLowercaseDescription (title description : String) : LabelParts :=
  if startsLowerAZ description then
    match reparseSplit title with
    | some (t, d) => { title := strTrim t, description := d ++ description }
    | none => { title := title, description := description }
  else { title := title, description := description }

/-- Last index of at least the given start offset at which an uppercase
letter is immediately followed by a lowercase letter. -/
def findULLastAux : Nat → List Char → Option Nat
  | _, [] => none
  | _, [_] => none
  | i, a :: b :: rest =>
      match findULLastAux (i + 1) (b :: rest) with
      | some j => some j
      | none => if isUpperAZ a && isLowerAZ b then some i else none

/-- Last uppercase-lowercase position of index at least 1. -/
def findLastUL (cs : List Char) : Option Nat :=
  match cs with
  | [] => none
  | _ :: rest => findULLastAux 1 rest

/-- Written from the claim text, for comparison with the source: the
same cleanup but re-splitting the title at the LAST position where an
uppercase letter is immediately followed by a lowercase letter. -/
def fixLowercaseDescriptionSpec (title description : String) : LabelParts :=
  if startsLowerAZ description then
    match (if title.data.all jsDotOK then findLastUL title.data else none) with
    | some i =>
        { title := strTrim (String.mk (title.data.take i))
          description := String.mk (title.data.drop i) ++ description }
    | none => { title := title, description := description }
  else { title := title, description := description }

/-- The character class of the second pattern group, letters and
whitespace. -/
def azClass (c : Char) : Bool := isUpperAZ c || isLowerAZ c || isJsWhitespace c

/-- The second parseLabel pattern: an uppercase letter, a lazy run of 1
to 40 letters or spaces, then an uppercase-lowercase boundary; the
second group extends greedily over dot characters. -/
def boundaryPattern (label : String) : Option (String × String) :=
  let cs := label.data
  match cs with
  | c0 :: _ =>
      if isUpperAZ c0 then
        match (List.range' 2 40).find? (fun j =>
            ((cs.drop 1).take (j - 1)).all azClass &&
            (match cs.drop j with
             | a :: b :: _ => isUpperAZ a && isLowerAZ b
             | _ => false)) with
        | some j =>
            some (String.mk (cs.take j),
                  String.mk ((cs.drop j).take 2 ++ (cs.drop (j + 2)).takeWhile jsDotOK))
        | none => none
      else none
  | [] => none

/-- The separator class of the third pattern: colon, en dash, em dash,
hyphen. -/
def isSep (c : Char) : Bool := c = ':' || c = '–' || c = '—' || c = '-'

/-- After the separator, the greedy whitespace run backtracks until the
dot-plus group can match at least one character; the group then extends
greedily over dot characters. -/
def sepTailAt (rest : List Char) : Nat → Option (List Char)
  | 0 =>
      match rest with
      | c :: _ => if jsDotOK c then some (rest.takeWhile jsDotOK) else none
      | [] => none
  | j + 1 =>
      match rest.drop (j + 1) with
      | c :: _ =>
          if jsDotOK c then some ((rest.drop (j + 1)).takeWhile jsDotOK)
          else sepTailAt rest j
      | [] => sepTailAt rest j

/-- The text reclaimed after the separator and the surrounding
whitespace. -/
def sepTail (rest : List Char) : Option (List Char) :=
  sepTailAt rest (rest.takeWhile isJsWhitespace).length

/-- One backtracking attempt of the third pattern with a first group of
length L: skip whitespace, require a separator, then match the tail. -/
def separatorTryAt (cs : List Char) (L : Nat) : Option (String × String) :=
  let pos := L + ((cs.drop L).takeWhile isJsWhitespace).length
  match cs.drop pos with
  | c :: rest =>
      if isSep c then
        (sepTail rest).map fun g2 => (String.mk (cs.take L), String.mk g2)
      else none
  | [] => none

/-- The third parseLabel pattern: a greedy run of 3 to 40 non-separator
characters, optional whitespace, one separator, optional whitespace,
then a non-empty remainder.  The greedy group tries the longest
admissible length first. -/
def separatorPattern (label : String) : Option (String × String) :=
  let cs := label.data
  let lmax := min 40 (cs.takeWhile fun c => !(isSep c)).length
  if lmax < 3 then none
  else ((List.range' 3 (lmax - 2)).reverse).findSome? (separatorTryAt cs)

/-- The fallback chain after the first pattern: the boundary pattern,
then the separator pattern, then title empty with the trimmed input as
description. -/
def parseLabelFallback (label : String) : LabelParts :=
  match boundaryPattern label with
  | some (g1, g2) => { title := strTrim g1, description := strTrim g2 }
  | none =>
      match separatorPattern label with
      | some (g1, g2) => { title := strTrim g1, description := strTrim g2 }
      | none => { title := "", description := strTrim label }

/-- parseLabel from the source: empty input yields empty parts; the
sentence pattern applies when its first group has at most 50 characters,
followed by the lowercase-description cleanup; otherwise the fallback
chain runs. -/
def parseLabel (label : String) : LabelParts :=
  if label = "" then { title := "", description := "" }
  else
    match sentencePattern label with
    | some (g1, g2) =>
        if g1.length ≤ 50 then fixLowercaseDescription (strTrim g1) (strTrim g2)
        else parseLabelFallback label
    | none => parseLabelFallback label

namespace Dyn

/-! ### Dynamic model

The typed model above fixes every item field to a string, which is the
shape the scraping probes produce.  The source, however, is duck-typed:
an item field can hold any JS value, and the pipeline calls string
methods on some of those fields.  This dynamic model keeps the category
structure but lets item fields range over JS primitives, and models a
method call on a non-string as a thrown TypeError via Except. -/

/-- A JS primitive value: undefined (also standing for absent), a string
or a number. -/
inductive JVal where
  | undef
  | str (s : String)
  | num (n : Int)
deriving DecidableEq, Repr

/-- JS truthiness of a primitive. -/
def JVal.truthy : JVal → Bool
  | .undef => false
  | .str s => s ≠ ""
  | .num n => n ≠ 0

/-- JS a || b on primitives. -/
def jvOr (a b : JVal) : JVal := if a.truthy then a else b

/-- Calling substring(0, n): succeeds on strings, throws on any other
value. -/
def jvSubstring (v : JVal) (n : Nat) : Except String String :=
  match v with
  | .str s => .ok (strTake s n)
  | _ => .error "TypeError: substring is not a function"

/-- JS string coercion as performed by the + operator on primitives. -/
def jvConcatStr : JVal → String
  | .str s => s
  | .num n => toString n
  | .undef => "undefined"

/-- JS Array.prototype.join coercion: undefined becomes the empty
string. -/
def jvJoinElem : JVal → String
  | .str s => s
  | .num n => toString n
  | .undef => ""

/-- A hotspot point with dynamic fields. -/
structure DPoint where
  index : JVal := .undef
  title : JVal := .undef
  description : JVal := .undef
  rawLabel : JVal := .undef
  label : JVal := .undef
deriving DecidableEq, Repr

/-- A content item with dynamic fields. -/
structure DItem where
  id : JVal := .undef
  content : JVal := .undef
  question : JVal := .undef
  title : JVal := .undef
  description : JVal := .undef
  label : JVal := .undef
  front : JVal := .undef
  back : JVal := .undef
  points : Option (List DPoint) := none
  items : Option (List JVal) := none
deriving DecidableEq, Repr

/-- generateContentHash on a dynamic item.  On the hotspot path the
mapped values with no usable length are filtered out, so no method is
called on a non-string; on the other path substring is called on the
first truthy field, which throws when that field is not a string. -/
def genHash (item : DItem) : Except String String :=
  match item.points with
  | some pts =>
      .ok (strTake (joinSep "|"
        ((pts.map fun p => jvOr p.title (jvOr p.description (jvOr p.label (.str "")))).filterMap
          fun v =>
            match v with
            | .str s => if 0 < s.length then some s else none
            | _ => none)) 200)
  | none =>
      jvSubstring (jvOr item.content (jvOr item.question (jvOr item.title
        (jvOr item.description (jvOr item.label (.str "")))))) 200

/-- Accumulator content with dynamic items. -/
structure DContent where
  flipCards : List DItem := []
  hotspots : List DItem := []
  knowledgeChecks : List DItem := []
  accordions : List DItem := []
  tabs : List DItem := []
  images : List DItem := []
  textBlocks : List DItem := []
  lists : List DItem := []
  tables : List DItem := []
  videos : List DItem := []
  rawText : JVal := .str ""
deriving DecidableEq, Repr

/-- Source content with dynamic items. -/
structure DSourceContent where
  flipCards : Option (List DItem) := none
  hotspots : Option (List DItem) := none
  knowledgeChecks : Option (List DItem) := none
  accordions : Option (List DItem) := none
  tabs : Option (List DItem) := none
  images : Option (List DItem) := none
  textBlocks : Option (List DItem) := none
  lists : Option (List DItem) := none
  tables : Option (List DItem) := none
  videos : Option (List DItem) := none
  rawText : Option JVal := none
  metadata : Option Metadata := none
deriving DecidableEq, Repr

/-- Envelope data with dynamic content. -/
structure DRData where
  metadata : Option Metadata := none
  content : Option DSourceContent := none
deriving DecidableEq, Repr

/-- A response entry with dynamic content. -/
inductive DResponse where
  | absent
  | env (success : Bool) (data : Option DRData)
  | bare (url course lesson path : String)
deriving DecidableEq, Repr

/-- The merge accumulator of the dynamic model. -/
structure DAccum where
  metadata : Metadata := {}
  content : DContent := {}
deriving DecidableEq, Repr

/-- Content merge of one source, as in the typed model; rawText is
assigned whenever the source value is truthy. -/
def mergeContentStep (acc : DAccum) (src : DSourceContent) : DAccum :=
  { metadata :=
      match src.metadata with
      | some m => mergeMetadata acc.metadata m
      | none => acc.metadata
    content :=
      { flipCards := acc.content.flipCards ++ src.flipCards.getD []
        hotspots := acc.content.hotspots ++ src.hotspots.getD []
        knowledgeChecks := acc.content.knowledgeChecks ++ src.knowledgeChecks.getD []
        accordions := acc.content.accordions ++ src.accordions.getD []
        tabs := acc.content.tabs ++ src.tabs.getD []
        images := acc.content.images ++ src.images.getD []
        textBlocks := acc.content.textBlocks ++ src.textBlocks.getD []
        lists := acc.content.lists ++ src.lists.getD []
        tables := acc.content.tables ++ src.tables.getD []
        videos := acc.content.videos ++ src.videos.getD []
        rawText :=
          match src.rawText with
          | some v => if v.truthy then v else acc.content.rawText
          | none => acc.content.rawText } }

/-- Response merge of the dynamic model. -/
def mergeResponse (acc : DAccum) (r : DResponse) : DAccum :=
  match r with
  | .absent => acc
  | .bare url course lesson path =>
      if url ≠ "" ∨ course ≠ "" ∨ lesson ≠ "" then
        { acc with metadata := mergeBare acc.metadata url course lesson path }
      else acc
  | .env success data =>
      match success, data with
      | true, some d =>
          let acc1 : DAccum :=
            match d.metadata with
            | some m => { acc with metadata := mergeMetadata acc.metadata m }
            | none => acc
          match d.content with
          | some c => mergeContentStep acc1 c
          | none => acc1
      | _, _ => acc

/-- The generic deduplication filter, propagating a thrown TypeError. -/
def dedupListAux (seen : List String) : List DItem → Except String (List DItem)
  | [] => .ok []
  | x :: xs => do
      let h ← genHash x
      if h.length < 5 then dedupListAux seen xs
      else if seen.contains h then dedupListAux seen xs
      else do
        let rest ← dedupListAux (h :: seen) xs
        pure (x :: rest)

/-- The deduplication pass on one category. -/
def dedupList (xs : List DItem) : Except String (List DItem) :=
  dedupListAux [] xs

/-- The deduplication pass over the content, visiting the category keys
in their insertion order. -/
def dedupContent (c : DContent) : Except String DContent := do
  let fc ← dedupList c.flipCards
  let hs ← dedupList c.hotspots
  let kc ← dedupList c.knowledgeChecks
  let ac ← dedupList c.accordions
  let tb ← dedupList c.tabs
  let im ← dedupList c.images
  let tx ← dedupList c.textBlocks
  let ls ← dedupList c.lists
  let ta ← dedupList c.tables
  let vd ← dedupList c.videos
  pure { c with
    flipCards := fc, hotspots := hs, knowledgeChecks := kc, accordions := ac,
    tabs := tb, images := im, textBlocks := tx, lists := ls, tables := ta,
    videos := vd }

/-- The hotspot point key of the collapse: string concatenation coerces
the title, but substring is called on the description-or-rawLabel value
and throws when it is a non-string. -/
def collapseKey (p : DPoint) : Except String String := do
  let tail ← jvSubstring (jvOr p.description (jvOr p.rawLabel (.str ""))) 100
  pure (jvConcatStr (jvOr p.title (.str "")) ++ "|" ++ tail)

/-- One step of the hotspot collapse. -/
def collapseStep (st : List DPoint × List String) (p : DPoint) :
    Except String (List DPoint × List String) := do
  let key ← collapseKey p
  if 5 < key.length ∧ st.2.contains key = false then
    pure (st.1 ++ [{ p with index := .num st.1.length }], key :: st.2)
  else pure st

/-- The flattened, deduplicated point list of all hotspot groups. -/
def collapsePoints (groups : List DItem) : Except String (List DPoint) := do
  let st ← groups.foldlM
    (fun st g =>
      match g.points with
      | some pts => pts.foldlM collapseStep st
      | none => pure st)
    (([], []) : List DPoint × List String)
  pure st.1

/-- The hotspot collapse pass. -/
def collapseHotspots (c : DContent) : Except String DContent := do
  let pts ← collapsePoints c.hotspots
  pure { c with
    hotspots :=
      if 0 < pts.length then
        [{ id := .str "hotspots-combined", points := some pts }]
      else [] }

/-- The text-block cleanup: substring on the content-or-empty value,
which throws on a non-string truthy content. -/
def dedupTextBlocksAux (seen : List String) :
    List DItem → Except String (List DItem)
  | [] => .ok []
  | b :: bs => do
      let h ← jvSubstring (jvOr b.content (.str "")) 100
      if seen.contains h then dedupTextBlocksAux seen bs
      else do
        let rest ← dedupTextBlocksAux (h :: seen) bs
        pure (b :: rest)

/-- The list-block key: join coerces every element, so this pass never
throws. -/
def listKeyD (b : DItem) : String :=
  strTake (joinSep "|" ((b.items.getD []).map jvJoinElem)) 150

/-- The list-block cleanup pass. -/
def dedupListBlocksAux (seen : List String) : List DItem → List DItem
  | [] => []
  | b :: bs =>
      let h := listKeyD b
      if seen.contains h then dedupListBlocksAux seen bs
      else b :: dedupListBlocksAux (h :: seen) bs

/-- The knowledge-check cleanup.  A numeric question passes the length
guard (a JS comparison with undefined is false) and then throws on
toLowerCase. -/
def filterKCsAux (seen : List String) : List DItem → Except String (List DItem)
  | [] => .ok []
  | kc :: rest =>
      if !kc.question.truthy ||
          (match kc.question with | .str s => decide (s.length < 10) | _ => false) then
        filterKCsAux seen rest
      else
        match kc.question with
        | .str q =>
            if kcFalsePositive q then filterKCsAux seen rest
            else
              let h := strTake q 100
              if seen.contains h then filterKCsAux seen rest
              else do
                let r ← filterKCsAux (h :: seen) rest
                pure (kc :: r)
        | _ => .error "TypeError: toLowerCase is not a function"

/-- Statistics of the dynamic content. -/
def computeStats (c : DContent) : Statistics :=
  let s : Statistics :=
    { flipCards := c.flipCards.length
      hotspots := c.hotspots.length
      knowledgeChecks := c.knowledgeChecks.length
      accordions := c.accordions.length
      tabs := c.tabs.length
      images := c.images.length
      textBlocks := c.textBlocks.length
      lists := c.lists.length
      tables := c.tables.length
      videos := c.videos.length
      totalItems := 0 }
  { s with totalItems := (statValues s).foldl (fun a b => a + b) 0 }

/-- The pipeline output of the dynamic model. -/
structure DDocument where
  metadata : Metadata
  content : DContent
  statistics : Statistics
deriving DecidableEq, Repr

/-- combineResults over dynamic items: the same stages as the typed
model, with a thrown TypeError propagating out of the function. -/
def combineResults (scrapedAt : String) (responses : List DResponse) :
    Except String DDocument := do
  let init : DAccum := { metadata := { scrapedAt := scrapedAt } }
  let merged := responses.foldl mergeResponse init
  let c1 ← dedupContent merged.content
  let c2 ← collapseHotspots c1
  let tx ← dedupTextBlocksAux [] c2.textBlocks
  let c3 := { c2 with textBlocks := tx }
  let c4 := { c3 with lists := dedupListBlocksAux [] c3.lists }
  let kcs ← filterKCsAux [] c4.knowledgeChecks
  let c5 := { c4 with knowledgeChecks := kcs }
  pure { metadata := merged.metadata, content := c5, statistics := computeStats c5 }

end Dyn

/-! ### Claim C1: statistics consistency -/

/-- Helper: the statistics derived from any content satisfy the sum
equation and tie each count to the category length. -/
theorem computeStats_consistent (c : Content) :
    (computeStats c).totalItems =
      (computeStats c).flipCards + (computeStats c).hotspots +
      (computeStats c).knowledgeChecks + (computeStats c).accordions +
      (computeStats c).tabs + (computeStats c).images +
      (computeStats c).textBlocks + (computeStats c).lists +
      (computeStats c).tables + (computeStats c).videos := by
  simp [computeStats, statValues]

/-- Claim C1: for every CombinedDocument produced by combineResults,
statistics.totalItems equals the sum of the ten per-category counts,
each of which equals the length of that category's final sequence, and
the degenerate document built from no responses has totalItems 0. -/
theorem statistics_totalItems_consistent (ts : String) (rs : List Response) :
    ((combineResults ts rs).statistics.totalItems =
      (combineResults ts rs).statistics.flipCards +
      (combineResults ts rs).statistics.hotspots +
      (combineResults ts rs).statistics.knowledgeChecks +
      (combineResults ts rs).statistics.accordions +
      (combineResults ts rs).statistics.tabs +
      (combineResults ts rs).statistics.images +
      (combineResults ts rs).statistics.textBlocks +
      (combineResults ts rs).statistics.lists +
      (combineResults ts rs).statistics.tables +
      (combineResults ts rs).statistics.videos) ∧
    (combineResults ts rs).statistics.flipCards =
      (combineResults ts rs).content.flipCards.length ∧
    (combineResults ts rs).statistics.hotspots =
      (combineResults ts rs).content.hotspots.length ∧
    (combineResults ts rs).statistics.knowledgeChecks =
      (combineResults ts rs).content.knowledgeChecks.length ∧
    (combineResults ts rs).statistics.accordions =
      (combineResults ts rs).content.accordions.length ∧
    (combineResults ts rs).statistics.tabs =
      (combineResults ts rs).content.tabs.length ∧
    (combineResults ts rs).statistics.images =
      (combineResults ts rs).content.images.length ∧
    (combineResults ts rs).statistics.textBlocks =
      (combineResults ts rs).content.textBlocks.length ∧
    (combineResults ts rs).statistics.lists =
      (combineResults ts rs).content.lists.length ∧
    (combineResults ts rs).statistics.tables =
      (combineResults ts rs).content.tables.length ∧
    (combineResults ts rs).statistics.videos =
      (combineResults ts rs).content.videos.length ∧
    (combineResults ts []).statistics.totalItems = 0 :=
  ⟨computeStats_consistent _, rfl, rfl, rfl, rfl, rfl, rfl, rfl, rfl, rfl, rfl, rfl⟩

/-! ### Claim C10: knowledge-check question length -/

/-- Helper: every knowledge check kept by the cleanup pass has a
question of at least 10 characters. -/
theorem filterKCsAux_question_length (xs : List Item) :
    ∀ (seen : List String), ∀ kc ∈ filterKCsAux seen xs,
      10 ≤ kc.question.length := by
  induction xs with
  | nil => intro seen kc h; simp [filterKCsAux] at h
  | cons x rest ih =>
      intro seen kc h
      by_cases h1 : x.question = "" ∨ x.question.length < 10
      · simp only [filterKCsAux, h1, if_true] at h
        exact ih seen kc h
      · by_cases h2 : kcFalsePositive x.question = true
        · simp [filterKCsAux, h1, h2] at h
          exact ih seen kc h
        · by_cases h3 : strTake x.question 100 ∈ seen
          · simp [filterKCsAux, h1, h2, h3] at h
            exact ih seen kc h
          · simp [filterKCsAux, h1, h2, h3] at h
            rcases h with h | h
            · subst h
              push_neg at h1
              obtain ⟨-, h1b⟩ := h1
              omega
            · exact ih _ kc h

/-- Claim C10: after the pipeline completes, every surviving knowledge
check has a question of length at least 10 (the merge-time pass drops
any check whose question is missing or shorter than 10 characters). -/
theorem kc_question_min_length (ts : String) (rs : List Response) (kc : Item)
    (h : kc ∈ (combineResults ts rs).content.knowledgeChecks) :
    10 ≤ kc.question.length := by
  simp only [combineResults] at h
  exact filterKCsAux_question_length _ _ kc h

/-- Concrete knowledge check exercising the C10 theorem. -/
def kcWitnessItem : Item := { question := "What is an integration?" }

/-- One successful response carrying the witness knowledge check. -/
def kcWitnessResp : Response :=
  .env true (some { content := some { knowledgeChecks := some [kcWitnessItem] } })

set_option maxRecDepth 8000 in
/-- Claim C10 witness: the theorem applied to a concrete surviving
knowledge check. -/
theorem kc_question_min_length_witness : 10 ≤ kcWitnessItem.question.length :=
  kc_question_min_length "T0" [kcWitnessResp] kcWitnessItem (by decide)

/-! ### Claim C8: parseLabel reference examples -/

set_option maxRecDepth 8000 in
/-- Claim C8: the Label Segmenter maps the three reference inputs to the
specified title and description pairs. -/
theorem parseLabel_reference_examples :
    parseLabel "Require MFAThe first time a user logs in, they must set up MFA." =
      { title := "Require MFA"
        description := "The first time a user logs in, they must set up MFA." } ∧
    parseLabel "Status: Active" = { title := "Status", description := "Active" } ∧
    parseLabel "just some plain text" =
      { title := "", description := "just some plain text" } := by
  refine ⟨?_, ?_, ?_⟩ <;> decide

/-! ### Claim C7: the sentence-start re-split (corrected: first, not
last, uppercase-lowercase position) -/

/-- An admissible re-split position of the reparse pattern: an index of
at least 1 where an uppercase letter is immediately followed by a
lowercase letter. -/
@[reducible] def isULSplit (cs : List Char) (i : Nat) : Prop :=
  1 ≤ i ∧ i + 1 < cs.length ∧
  isUpperAZ (cs.getD i ' ') = true ∧ isLowerAZ (cs.getD (i + 1) ' ') = true

/-- An uppercase-lowercase pair at an arbitrary position, used to reason
about the scanning helper. -/
@[reducible] def pairAt (cs : List Char) (m : Nat) : Prop :=
  m + 1 < cs.length ∧
  isUpperAZ (cs.getD m ' ') = true ∧ isLowerAZ (cs.getD (m + 1) ' ') = true

/-- Helper: shifting a pair position across a cons cell. -/
theorem pairAt_cons_succ (a : Char) (l : List Char) (m : Nat) :
    pairAt (a :: l) (m + 1) ↔ pairAt l m := by
  simp [pairAt, Nat.succ_lt_succ_iff]

/-- Helper: a failed scan means no pair exists anywhere. -/
theorem findULAux_none (cs : List Char) :
    ∀ k, findULAux k cs = none → ∀ m, ¬ pairAt cs m := by
  induction cs with
  | nil => intro k _ m hp; simp [pairAt] at hp
  | cons a tail ih =>
      intro k h m hp
      cases tail with
      | nil => simp [pairAt] at hp
      | cons b rest =>
          by_cases hab : (isUpperAZ a && isLowerAZ b) = true
          · rw [findULAux, if_pos hab] at h
            exact Option.noConfusion h
          · rw [findULAux, if_neg hab] at h
            cases m with
            | zero =>
                obtain ⟨-, hu, hl⟩ := hp
                simp only [List.getD_cons_zero] at hu
                simp only [List.getD_cons_succ, List.getD_cons_zero] at hl
                exact hab (by simp [hu, hl])
            | succ m =>
                exact ih (k + 1) h m ((pairAt_cons_succ a (b :: rest) m).mp hp)

/-- Helper: a successful scan returns the first pair position, offset by
the starting label. -/
theorem findULAux_some (cs : List Char) :
    ∀ k i, findULAux k cs = some i →
      ∃ m, i = k + m ∧ pairAt cs m ∧ ∀ n < m, ¬ pairAt cs n := by
  induction cs with
  | nil => intro k i h; rw [findULAux] at h; exact Option.noConfusion h
  | cons a tail ih =>
      intro k i h
      cases tail with
      | nil => rw [findULAux] at h; exact Option.noConfusion h
      | cons b rest =>
          by_cases hab : (isUpperAZ a && isLowerAZ b) = true
          · rw [findULAux, if_pos hab] at h
            obtain rfl : k = i := Option.some.inj h
            refine ⟨0, by omega, ?_, by omega⟩
            obtain ⟨hu, hl⟩ := Bool.and_eq_true_iff.mp hab
            exact ⟨by simp, by simpa using hu, by simpa using hl⟩
          · rw [findULAux, if_neg hab] at h
            obtain ⟨m, rfl, hpm, hmin⟩ := ih (k + 1) i h
            refine ⟨m + 1, by omega, (pairAt_cons_succ a (b :: rest) m).mpr hpm, ?_⟩
            intro n hn
            cases n with
            | zero =>
                intro hq
                obtain ⟨-, hu, hl⟩ := hq
                simp only [List.getD_cons_zero] at hu
                simp only [List.getD_cons_succ, List.getD_cons_zero] at hl
                exact hab (by simp [hu, hl])
            | succ n =>
                rw [pairAt_cons_succ]
                exact hmin n (by omega)

/-- Helper: translating split positions of a list to pair positions of
its tail. -/
theorem isULSplit_iff_pairAt (c : Char) (rest : List Char) (i : Nat)
    (hi : 1 ≤ i) : isULSplit (c :: rest) i ↔ pairAt rest (i - 1) := by
  obtain ⟨j, rfl⟩ : ∃ j, i = j + 1 := ⟨i - 1, by omega⟩
  simp [isULSplit, pairAt, Nat.succ_lt_succ_iff, hi]

/-- Helper: when the lazy reparse pattern matches, it matches at the
least admissible split position. -/
theorem findFirstUL_some_spec (cs : List Char) (i : Nat)
    (h : findFirstUL cs = some i) :
    isULSplit cs i ∧ ∀ n, isULSplit cs n → i ≤ n := by
  cases cs with
  | nil => rw [findFirstUL] at h; exact Option.noConfusion h
  | cons c rest =>
      rw [findFirstUL] at h
      obtain ⟨m, rfl, hpm, hmin⟩ := findULAux_some rest 1 i h
      constructor
      · refine (isULSplit_iff_pairAt c rest (1 + m) (by omega)).mpr ?_
        simpa using hpm
      · intro n hn
        by_contra hlt
        push_neg at hlt
        have h1 : 1 ≤ n := hn.1
        have hpn : pairAt rest (n - 1) := (isULSplit_iff_pairAt c rest n h1).mp hn
        exact hmin (n - 1) (by omega) hpn

/-- Helper: when the lazy reparse pattern fails, no admissible split
position exists. -/
theorem findFirstUL_none_spec (cs : List Char) (h : findFirstUL cs = none) :
    ∀ n, ¬ isULSplit cs n := by
  intro n hn
  cases cs with
  | nil => simp [isULSplit] at hn
  | cons c rest =>
      rw [findFirstUL] at h
      exact findULAux_none rest 1 h (n - 1)
        ((isULSplit_iff_pairAt c rest n hn.1).mp hn)

/-- Claim C7 counterexample: on the title XAbAc with a
lowercase-starting description, the source re-splits at the FIRST
uppercase-lowercase position (index 1), not at the last one (index 3)
as the claim states; the two disagree. -/
theorem resplit_uses_first_not_last :
    fixLowercaseDescription "XAbAc" "and more" =
      { title := "X", description := "AbAcand more" } ∧
    fixLowercaseDescriptionSpec "XAbAc" "and more" =
      { title := "XAb", description := "Acand more" } ∧
    fixLowercaseDescription "XAbAc" "and more" ≠
      fixLowercaseDescriptionSpec "XAbAc" "and more" := by
  refine ⟨by decide, by decide, by decide⟩

/-- Claim C7 (amended): in the sentence-start rule, whenever the
computed description begins with a lowercase letter and the title
contains no line terminator, the title is re-split at the FIRST (least)
position where an uppercase letter is immediately followed by a
lowercase letter, and the reclaimed text is prepended untrimmed to the
description. -/
theorem resplit_first_position (title desc : String)
    (hd : startsLowerAZ desc = true) (hdot : title.data.all jsDotOK = true)
    (j : Nat) (hj : isULSplit title.data j) :
    ∃ i, isULSplit title.data i ∧ i ≤ j ∧
      fixLowercaseDescription title desc =
        { title := strTrim (String.mk (title.data.take i))
          description := String.mk (title.data.drop i) ++ desc } := by
  cases hf : findFirstUL title.data with
  | none => exact absurd hj (findFirstUL_none_spec title.data hf j)
  | some i =>
      obtain ⟨hsplit, hleast⟩ := findFirstUL_some_spec title.data i hf
      refine ⟨i, hsplit, hleast j hj, ?_⟩
      simp only [fixLowercaseDescription, hd, if_true, reparseSplit, hdot, hf]
      rfl

/-- Claim C7 witness: the amended theorem at the concrete title XAbAc,
which admits split positions 1 and 3; the returned split is at most 3. -/
theorem resplit_first_position_witness :
    ∃ i, isULSplit "XAbAc".data i ∧ i ≤ 3 ∧
      fixLowercaseDescription "XAbAc" "and more" =
        { title := strTrim (String.mk ("XAbAc".data.take i))
          description := String.mk ("XAbAc".data.drop i) ++ "and more" } :=
  resplit_first_position "XAbAc" "and more" (by decide) (by decide) 3 (by decide)

/-! ### Claim C9: the pipeline is not total on malformed items -/

/-- A flip-card-shaped item whose primary text field holds the number
42 instead of a string. -/
def numContentItem : Dyn.DItem := { content := .num 42 }

/-- One successful response carrying the malformed item. -/
def numContentResp : Dyn.DResponse :=
  .env true (some { content := some { flipCards := some [numContentItem] } })

/-- Claim C9: contrary to the claim, combineResults does not return a
CombinedDocument on every input: an item whose primary text field holds
a non-string truthy value makes generateContentHash call substring on a
number inside the deduplication stage, and the TypeError propagates out
of the merge stage. -/
theorem combineResults_raises_on_nonstring_field :
    Dyn.combineResults "T0" [numContentResp] =
      .error "TypeError: substring is not a function" := rfl

/-! ### Claim C3: hotspot collapse -/

/-- Helper: one collapse step preserves the contiguous-index invariant,
because a kept point is re-indexed with the current output length. -/
theorem collapseStep_indices (st : List Point × List String) (p : Point)
    (h : st.1.map Point.index = List.range st.1.length) :
    (collapseStep st p).1.map Point.index =
      List.range (collapseStep st p).1.length := by
  by_cases hc : 5 < (pointKey p).length ∧ st.2.contains (pointKey p) = false
  · simp only [collapseStep, if_pos hc]
    simp [h, List.range_succ]
  · simp only [collapseStep, if_neg hc]
    exact h

/-- Helper: the invariant is preserved over one group's points. -/
theorem foldl_collapseStep_indices (pts : List Point) :
    ∀ st : List Point × List String,
      st.1.map Point.index = List.range st.1.length →
      (pts.foldl collapseStep st).1.map Point.index =
        List.range (pts.foldl collapseStep st).1.length := by
  induction pts with
  | nil => intro st h; exact h
  | cons p pts ih => intro st h; exact ih _ (collapseStep_indices st p h)

/-- Helper: the full collapse emits points indexed 0, 1, ..., n-1. -/
theorem collapsePoints_indices (groups : List Item) :
    (collapsePoints groups).map Point.index =
      List.range (collapsePoints groups).length := by
  have main : ∀ (gs : List Item) (st : List Point × List String),
      st.1.map Point.index = List.range st.1.length →
      ((gs.foldl
        (fun st g =>
          match g.points with
          | some pts => pts.foldl collapseStep st
          | none => st) st).1.map Point.index =
       List.range ((gs.foldl
        (fun st g =>
          match g.points with
          | some pts => pts.foldl collapseStep st
          | none => st) st).1.length)) := by
    intro gs
    induction gs with
    | nil => intro st h; exact h
    | cons g gs ih =>
        intro st h
        cases hg : g.points with
        | none => simp only [List.foldl_cons, hg]; exact ih st h
        | some pts =>
            simp only [List.foldl_cons, hg]
            exact ih _ (foldl_collapseStep_indices pts st h)
  exact main groups ([], []) (by simp)

/-- First hotspot group of the reference scenario: three points. -/
def hotspotGroupA : Item :=
  { id := "g1",
    points := some
      [{ title := "Alpha One" }, { title := "Alpha Two" },
       { title := "Alpha Three" }] }

/-- Second hotspot group: four points, the first two textually identical
to points of the first group. -/
def hotspotGroupB : Item :=
  { id := "g2",
    points := some
      [{ title := "Alpha One" }, { title := "Alpha Two" },
       { title := "Beta Three" }, { title := "Beta Four" }] }

/-- One successful response carrying both hotspot groups. -/
def hotspotScenarioResp : Response :=
  .env true
    (some { content := some { hotspots := some [hotspotGroupA, hotspotGroupB] } })

set_option maxRecDepth 8000 in
/-- Claim C3: after the pipeline runs, the hotspots category holds zero
or one group whose points are indexed contiguously from 0; and the
3-point and 4-point groups sharing exactly two textually identical
points collapse to one group of five points indexed 0 through 4. -/
theorem hotspots_collapsed :
    (∀ (ts : String) (rs : List Response),
      (combineResults ts rs).content.hotspots = [] ∨
      ∃ pts : List Point,
        (combineResults ts rs).content.hotspots =
          [{ id := "hotspots-combined", points := some pts }] ∧
        pts.map Point.index = List.range pts.length) ∧
    ((hotspotGroupA.points.getD []).length = 3 ∧
     (hotspotGroupB.points.getD []).length = 4 ∧
     ((hotspotGroupB.points.getD []).filter
        (fun p => (hotspotGroupA.points.getD []).contains p)).length = 2 ∧
     (combineResults "T0" [hotspotScenarioResp]).content.hotspots =
       [{ id := "hotspots-combined",
          points := some
            [{ index := 0, title := "Alpha One" },
             { index := 1, title := "Alpha Two" },
             { index := 2, title := "Alpha Three" },
             { index := 3, title := "Beta Three" },
             { index := 4, title := "Beta Four" }] }]) := by
  constructor
  · intro ts rs
    have hred : (combineResults ts rs).content.hotspots =
        (collapseHotspots (dedupContent
          ((rs.foldl mergeResponse
            { metadata := { scrapedAt := ts } }).content))).hotspots := rfl
    by_cases hp : 0 < (collapsePoints (dedupContent
        ((rs.foldl mergeResponse
          { metadata := { scrapedAt := ts } }).content)).hotspots).length
    · right
      refine ⟨collapsePoints (dedupContent
          ((rs.foldl mergeResponse
            { metadata := { scrapedAt := ts } }).content)).hotspots, ?_, ?_⟩
      · rw [hred]
        simp only [collapseHotspots, if_pos hp]
      · exact collapsePoints_indices _
    · left
      rw [hred]
      simp only [collapseHotspots, if_neg hp]
  · refine ⟨by decide, by decide, by decide, by decide⟩

/-- Pointwise metadata preservation: every field already holding a
non-empty value keeps exactly that value. -/
def metaLE (m n : Metadata) : Prop :=
  (m.scrapedAt ≠ "" → n.scrapedAt = m.scrapedAt) ∧
  (m.url ≠ "" → n.url = m.url) ∧
  (m.course ≠ "" → n.course = m.course) ∧
  (m.lesson ≠ "" → n.lesson = m.lesson) ∧
  (m.path ≠ "" → n.path = m.path)

/-- Helper: a non-empty accumulator field survives one field merge. -/
theorem mergeField_ne (a s : String) (h : a ≠ "") : mergeField a s = a := by
  simp [mergeField, h]

/-- Helper: metaLE is reflexive. -/
theorem metaLE_refl (m : Metadata) : metaLE m m :=
  ⟨fun _ => rfl, fun _ => rfl, fun _ => rfl, fun _ => rfl, fun _ => rfl⟩

/-- Helper: preservation composes on one field. -/
theorem str_step {x y z : String} (h1 : x ≠ "" → y = x) (h2 : y ≠ "" → z = y)
    (h : x ≠ "") : z = x := by
  have hy := h1 h
  rw [h2 (by rw [hy]; exact h), hy]

/-- Helper: metaLE is transitive. -/
theorem metaLE_trans {a b c : Metadata} (h1 : metaLE a b) (h2 : metaLE b c) :
    metaLE a c :=
  ⟨str_step h1.1 h2.1, str_step h1.2.1 h2.2.1, str_step h1.2.2.1 h2.2.2.1,
   str_step h1.2.2.2.1 h2.2.2.2.1, str_step h1.2.2.2.2 h2.2.2.2.2⟩

/-- Helper: merging one source metadata record preserves non-empty
accumulator fields. -/
theorem mergeMetadata_le (m src : Metadata) : metaLE m (mergeMetadata m src) :=
  ⟨fun h => mergeField_ne _ _ h, fun h => mergeField_ne _ _ h,
   fun h => mergeField_ne _ _ h, fun h => mergeField_ne _ _ h,
   fun h => mergeField_ne _ _ h⟩

/-- Helper: merging a bare metadata object preserves non-empty fields. -/
theorem mergeBare_le (m : Metadata) (u c l p : String) :
    metaLE m (mergeBare m u c l p) :=
  ⟨fun _ => rfl, fun h => mergeField_ne _ _ h, fun h => mergeField_ne _ _ h,
   fun h => mergeField_ne _ _ h, fun h => mergeField_ne _ _ h⟩

/-- Helper: the content merge step touches metadata only through
mergeMetadata. -/
theorem mergeContentStep_le (acc : Accum) (c : SourceContent) :
    metaLE acc.metadata (mergeContentStep acc c).metadata := by
  cases hcm : c.metadata with
  | none => simp only [mergeContentStep, hcm]; exact metaLE_refl _
  | some m => simp only [mergeContentStep, hcm]; exact mergeMetadata_le _ _

/-- Helper: merging one response preserves non-empty metadata fields. -/
theorem mergeResponse_le (acc : Accum) (r : Response) :
    metaLE acc.metadata (mergeResponse acc r).metadata := by
  cases r with
  | absent => exact metaLE_refl _
  | bare u c l p =>
      by_cases hb : u ≠ "" ∨ c ≠ "" ∨ l ≠ ""
      · simp only [mergeResponse, if_pos hb]; exact mergeBare_le _ _ _ _ _
      · simp only [mergeResponse, if_neg hb]; exact metaLE_refl _
  | env s d =>
      cases s with
      | false => cases d <;> exact metaLE_refl _
      | true =>
          cases d with
          | none => exact metaLE_refl _
          | some dd =>
              rcases dd with ⟨dm, dc⟩
              cases dm with
              | none =>
                  cases dc with
                  | none => exact metaLE_refl _
                  | some c => exact mergeContentStep_le acc c
              | some m =>
                  cases dc with
                  | none => exact mergeMetadata_le _ _
                  | some c =>
                      exact metaLE_trans (mergeMetadata_le acc.metadata m)
                        (mergeContentStep_le
                          { acc with metadata := mergeMetadata acc.metadata m } c)

/-- Helper: preservation lifted through the whole response fold. -/
theorem foldl_mergeResponse_le (rs : List Response) :
    ∀ acc : Accum, metaLE acc.metadata ((rs.foldl mergeResponse acc).metadata) := by
  induction rs with
  | nil => intro acc; exact metaLE_refl _
  | cons r rs ih =>
      intro acc
      exact metaLE_trans (mergeResponse_le acc r) (ih (mergeResponse acc r))

/-- Source A of the reference scenario, course X. -/
def courseRespX : Response := .env true (some { metadata := some { course := "X" } })

/-- Source B of the reference scenario, course Y. -/
def courseRespY : Response := .env true (some { metadata := some { course := "Y" } })

/-- Source A with an empty course. -/
def courseRespEmpty : Response := .env true (some { metadata := some { course := "" } })

/-- Claim C2: metadata merging is first-non-empty-wins over the ordered
source list: once any field holds a non-empty value the rest of the fold
never changes it; merging course X before course Y keeps X, and an empty
first course lets Y through. -/
theorem metadata_first_wins :
    (∀ (acc : Accum) (rs : List Response),
      metaLE acc.metadata ((rs.foldl mergeResponse acc).metadata)) ∧
    (combineResults "T0" [courseRespX, courseRespY]).metadata.course = "X" ∧
    (combineResults "T0" [courseRespEmpty, courseRespY]).metadata.course = "Y" :=
  ⟨fun acc rs => foldl_mergeResponse_le rs acc, by decide, by decide⟩

/-- Concrete accumulator already holding a course for the C2 witness. -/
def metaWitnessAcc : Accum := { metadata := { course := "Keep" } }

/-- Claim C2 witness: the preservation part applied to a concrete
accumulator and a later source that tries to overwrite the course. -/
theorem metadata_first_wins_witness :
    (([courseRespY].foldl mergeResponse metaWitnessAcc).metadata.course = "Keep") :=
  (metadata_first_wins.1 metaWitnessAcc [courseRespY]).2.2.1 (by decide)

/-! ### Claim C6: content merge (corrected: rawText is last-wins) -/

/-- The effective content contribution of one response: the content of a
successful envelope with data, otherwise nothing. -/
def contentOf (r : Response) : SourceContent :=
  match r with
  | .env true (some d) => d.content.getD {}
  | _ => {}

/-- The effective rawText assignment of one response: its content
rawText when present and non-empty. -/
def rawTextOf (r : Response) : Option String :=
  match (contentOf r).rawText with
  | some s => if s ≠ "" then some s else none
  | none => none

/-- Helper: getLast? of a cons, with default. -/
theorem getLast_cons_getD {α : Type} (l : List α) (a d : α) :
    ((a :: l).getLast?).getD d = (l.getLast?).getD a := by
  cases l with
  | nil => rfl
  | cons b bs => rw [List.getLast?_cons_cons]; cases hb : (b :: bs).getLast? with
    | none => simp [List.getLast?] at hb
    | some x => rfl

/-- Helper: one merge step appends each category contribution and
applies the rawText assignment rule. -/
theorem mergeResponse_content (acc : Accum) (r : Response) :
    (mergeResponse acc r).content = (mergeContentStep acc (contentOf r)).content := by
  cases r with
  | absent =>
      simp [mergeResponse, mergeContentStep, contentOf]
  | bare u c l p =>
      by_cases hb : u ≠ "" ∨ c ≠ "" ∨ l ≠ ""
      · simp [mergeResponse, if_pos hb, mergeContentStep, contentOf]
      · simp [mergeResponse, if_neg hb, mergeContentStep, contentOf]
  | env s d =>
      cases s with
      | false => cases d <;> simp [mergeResponse, mergeContentStep, contentOf]
      | true =>
          cases d with
          | none => simp [mergeResponse, mergeContentStep, contentOf]
          | some dd =>
              rcases dd with ⟨dm, dc⟩
              cases dm <;> cases dc <;>
                simp [mergeResponse, mergeContentStep, contentOf]

/-- Claim C6 counterexample: two sources supply non-empty rawText AAAAA
then BBBBB; the merged document holds BBBBB, so a non-empty rawText is
replaced by a later source, contradicting the claim. -/
theorem rawText_not_first_wins :
    (combineResults "T0"
      [.env true (some { content := some { rawText := some "AAAAA" } }),
       .env true (some { content := some { rawText := some "BBBBB" } })]).content.rawText
      = "BBBBB" ∧
    ¬ (combineResults "T0"
      [.env true (some { content := some { rawText := some "AAAAA" } }),
       .env true (some { content := some { rawText := some "BBBBB" } })]).content.rawText
      = "AAAAA" := by
  constructor
  · rfl
  · decide

/-- Claim C6 (amended): over the whole fold, every category key present
in a source is appended after the existing items in arrival order, and
rawText is assigned whenever the source value is non-empty, so the LAST
source with a non-empty rawText wins rather than the first. -/
theorem merge_content_characterization (rs : List Response) :
    ∀ acc : Accum,
      (rs.foldl mergeResponse acc).content =
        { flipCards := acc.content.flipCards ++
            (rs.map fun r => (contentOf r).flipCards.getD []).flatten
          hotspots := acc.content.hotspots ++
            (rs.map fun r => (contentOf r).hotspots.getD []).flatten
          knowledgeChecks := acc.content.knowledgeChecks ++
            (rs.map fun r => (contentOf r).knowledgeChecks.getD []).flatten
          accordions := acc.content.accordions ++
            (rs.map fun r => (contentOf r).accordions.getD []).flatten
          tabs := acc.content.tabs ++
            (rs.map fun r => (contentOf r).tabs.getD []).flatten
          images := acc.content.images ++
            (rs.map fun r => (contentOf r).images.getD []).flatten
          textBlocks := acc.content.textBlocks ++
            (rs.map fun r => (contentOf r).textBlocks.getD []).flatten
          lists := acc.content.lists ++
            (rs.map fun r => (contentOf r).lists.getD []).flatten
          tables := acc.content.tables ++
            (rs.map fun r => (contentOf r).tables.getD []).flatten
          videos := acc.content.videos ++
            (rs.map fun r => (contentOf r).videos.getD []).flatten
          rawText := ((rs.filterMap rawTextOf).getLast?).getD acc.content.rawText } := by
  induction rs with
  | nil => intro acc; simp
  | cons r rs ih =>
      intro acc
      rw [List.foldl_cons, ih (mergeResponse acc r), mergeResponse_content acc r]
      rcases hr : (contentOf r).rawText with _ | s
      · simp [mergeContentStep, rawTextOf, hr, List.append_assoc]
      · by_cases hs : s = ""
        · simp [mergeContentStep, rawTextOf, hr, hs, List.append_assoc]
        · simp [mergeContentStep, rawTextOf, hr, hs, List.append_assoc,
            getLast_cons_getD]

/-! ### Claim C5: fingerprint definition, minimum length, truncation -/

/-- The first non-empty string of a list, or the empty string. -/
def firstNonEmpty : List String → String
  | [] => ""
  | s :: rest => if s = "" then firstNonEmpty rest else s

/-- Helper: everything kept by the deduplication pass has a fingerprint
of at least 5 characters. -/
theorem dedupListAux_mem_minlen (xs : List Item) :
    ∀ seen y, y ∈ dedupListAux seen xs → 5 ≤ (generateContentHash y).length := by
  induction xs with
  | nil => intro seen y h; simp [dedupListAux] at h
  | cons x xs ih =>
      intro seen y h
      by_cases h1 : (generateContentHash x).length < 5
      · simp only [dedupListAux, if_pos h1] at h
        exact ih seen y h
      · by_cases h2 : seen.contains (generateContentHash x) = true
        · simp only [dedupListAux, if_neg h1, if_pos h2] at h
          exact ih seen y h
        · simp only [dedupListAux, if_neg h1, if_neg h2, List.mem_cons] at h
          rcases h with h | h
          · subst h; omega
          · exact ih _ y h

/-- First 250-character item of the truncation scenario: 250 copies of
the letter a. -/
def longItemA : Item := { content := String.mk (List.replicate 250 'a') }

/-- Second 250-character item: identical to the first through character
239, then ten copies of the letter b. -/
def longItemB : Item :=
  { content := String.mk (List.replicate 240 'a' ++ List.replicate 10 'b') }

set_option maxRecDepth 8000 in
/-- Claim C5: the fingerprint of a non-hotspot item is the first
non-empty of content, question, title, description, label truncated to
200 characters; any item whose fingerprint is shorter than 5 characters
is dropped by the Deduplicator; and the two 250-character contents that
agree through character 209 but differ later collapse to one surviving
item. -/
theorem fingerprint_rules :
    (∀ item : Item, item.points = none →
      generateContentHash item =
        strTake (firstNonEmpty
          [item.content, item.question, item.title, item.description,
           item.label]) 200) ∧
    (∀ (xs : List Item) (item : Item),
      (generateContentHash item).length < 5 → item ∉ dedupList xs) ∧
    (longItemA.content.length = 250 ∧ longItemB.content.length = 250 ∧
     strTake longItemA.content 210 = strTake longItemB.content 210 ∧
     longItemA.content ≠ longItemB.content ∧
     dedupList [longItemA, longItemB] = [longItemA]) := by
  refine ⟨?_, ?_, ?_⟩
  · intro item hp
    simp only [generateContentHash, hp, jsOr, firstNonEmpty]
    split_ifs <;> simp_all
  · intro xs item hlt hmem
    have := dedupListAux_mem_minlen xs [] item hmem
    omega
  · decide

/-- Concrete item with a 3-character fingerprint for the C5 witness. -/
def shortHashItem : Item := { content := "abc" }

/-- Claim C5 witness: the minimum-length rule applied to a concrete item
that is unique yet dropped. -/
theorem fingerprint_rules_witness : shortHashItem ∉ dedupList [shortHashItem] :=
  fingerprint_rules.2.1 [shortHashItem] shortHashItem (by decide)

/-! ### Claim C4: idempotence and order preservation of the Deduplicator -/

/-- Helper: one deduplication pass is a fixed point of a second pass run
with the same seen set. -/
theorem dedupListAux_idem (xs : List Item) :
    ∀ seen, dedupListAux seen (dedupListAux seen xs) = dedupListAux seen xs := by
  induction xs with
  | nil => intro seen; rfl
  | cons x xs ih =>
      intro seen
      by_cases h1 : (generateContentHash x).length < 5
      · simp only [dedupListAux, if_pos h1]
        exact ih seen
      · by_cases h2 : seen.contains (generateContentHash x) = true
        · simp only [dedupListAux, if_neg h1, if_pos h2]
          exact ih seen
        · simp only [dedupListAux, if_neg h1, if_neg h2, ih]

/-- Helper: the deduplication pass only removes elements, preserving the
relative order of the kept ones. -/
theorem dedupListAux_sublist (xs : List Item) :
    ∀ seen, (dedupListAux seen xs).Sublist xs := by
  induction xs with
  | nil => intro seen; simp [dedupListAux]
  | cons x xs ih =>
      intro seen
      by_cases h1 : (generateContentHash x).length < 5
      · simp only [dedupListAux, if_pos h1]
        exact (ih seen).cons x
      · by_cases h2 : seen.contains (generateContentHash x) = true
        · simp only [dedupListAux, if_neg h1, if_pos h2]
          exact (ih seen).cons x
        · simp only [dedupListAux, if_neg h1, if_neg h2]
          exact (ih _).cons₂ x

/-- Helper: when all fingerprints are long enough, pairwise distinct and
unseen, the deduplication pass keeps everything. -/
theorem dedupListAux_distinct (xs : List Item) :
    ∀ seen,
      (∀ x ∈ xs, 5 ≤ (generateContentHash x).length) →
      (xs.map generateContentHash).Nodup →
      (∀ x ∈ xs, generateContentHash x ∉ seen) →
      dedupListAux seen xs = xs := by
  induction xs with
  | nil => intro seen _ _ _; rfl
  | cons x xs ih =>
      intro seen hlen hnd hseen
      have h1 : ¬ (generateContentHash x).length < 5 := by
        have := hlen x (by simp)
        omega
      have h2 : seen.contains (generateContentHash x) ≠ true := by
        simpa using hseen x (by simp)
      simp only [dedupListAux, if_neg h1, if_neg h2]
      congr 1
      apply ih
      · intro y hy; exact hlen y (by simp [hy])
      · simp only [List.map_cons, List.nodup_cons] at hnd
        exact hnd.2
      · intro y hy
        simp only [List.mem_cons]
        push_neg
        constructor
        · simp only [List.map_cons, List.nodup_cons] at hnd
          intro hEq
          exact hnd.1 (hEq ▸ List.mem_map_of_mem generateContentHash hy)
        · exact hseen y (by simp [hy])

/-- Helper: idempotence lifted to the whole accumulator content. -/
theorem dedupContent_idem (c : Content) :
    dedupContent (dedupContent c) = dedupContent c := by
  simp [dedupContent, dedupList, dedupListAux_idem]

/-- Claim C4: the Deduplicator is idempotent on every accumulator, its
output is always an order-preserving subsequence of its input, and on
items with pairwise distinct, long-enough fingerprints it keeps the
whole input in arrival order. -/
theorem dedup_idempotent_order :
    (∀ c : Content, dedupContent (dedupContent c) = dedupContent c) ∧
    (∀ xs : List Item, (dedupList xs).Sublist xs) ∧
    (∀ xs : List Item,
      (∀ x ∈ xs, 5 ≤ (generateContentHash x).length) →
      (xs.map generateContentHash).Nodup →
      dedupList xs = xs) :=
  ⟨dedupContent_idem,
   fun xs => dedupListAux_sublist xs [],
   fun xs hlen hnd => dedupListAux_distinct xs [] hlen hnd (by simp)⟩

/-- First concrete item for the C4 witness. -/
def distinctItemA : Item := { content := "Alpha block one" }

/-- Second concrete item for the C4 witness. -/
def distinctItemB : Item := { content := "Beta block two" }

/-- Claim C4 witness: the order-preservation part of the theorem at two
concrete items with distinct fingerprints. -/
theorem dedup_idempotent_order_witness :
    dedupList [distinctItemA, distinctItemB] = [distinctItemA, distinctItemB] :=
  dedup_idempotent_order.2.2 [distinctItemA, distinctItemB] (by decide) (by decide)

end Celigo
